import Mathlib

/-!
Verification of the lipszyc mirror tool (src/main.go) against its
specification.  The Go program is embedded shallowly:

* Go's `net/url.URL` is modelled by `GoURL`, which abstracts a parsed URL
  to its canonical string form (the output of `URL.String()`).  The program
  only ever stringifies URLs or hands them to the HTTP client, so this is
  adequate.  `url.Parse` is modelled on strings that are fixed points of
  re-stringification (which includes every `String()` output): it accepts
  exactly the strings without ASCII control characters (Go rejects bytes
  below 0x20 and DEL in URLs) and returns the URL with that string form.
* `encoding/json`'s string codec is modelled concretely (`jsonQuote`,
  `jsonUnquote`), following Go's escaping rules for `json.Marshal` of a
  string (HTML-escaping on, as in the source's `MarshalJSON`).
* nil-pointer dereference panics are modelled by `Option`/`none` results.
* The filesystem and the network are explicit state/environment values;
  every network GET and every file write is logged so that claims about
  "zero network calls" and "no filesystem side effect" are statable.
-/

/-- Model of a parsed `net/url.URL`, abstracted to its canonical string
form `URL.String()`. -/
structure GoURL where
  str : String
  deriving DecidableEq, Repr

/-- Go's `url.Parse` rejects ASCII control characters (below 0x20) and DEL
in the raw URL string; this is the validity notion the model retains. -/
def urlValid (s : String) : Bool :=
  s.data.all fun c => decide (0x20 ≤ c.toNat) && decide (c.toNat ≠ 0x7f)

/-- Model of `url.Parse`, restricted to strings in canonical form: on a
valid string it returns the URL whose string form is that string, otherwise
it fails. -/
def urlParse (s : String) : Option GoURL :=
  if urlValid s then some ⟨s⟩ else none

/-- The `JsonURL` struct of src/main.go: a wrapper holding a `*url.URL`.
The Go zero value holds a nil pointer, modelled as `none`. -/
structure JsonURL where
  u : Option GoURL
  deriving DecidableEq, Repr

/-- Go method `JsonURL.String` (src/main.go line 37): `j.u.String()`.
Calling it on the zero value dereferences a nil pointer and panics,
modelled by `none`. -/
def JsonURL.string (j : JsonURL) : Option String :=
  j.u.map GoURL.str

/-- Lower-case hex digit, as used by Go's JSON encoder. -/
def hexDigit (n : Nat) : Char :=
  if n < 10 then Char.ofNat (48 + n) else Char.ofNat (87 + n)

/-- Value of a hex digit character accepted by Go's JSON decoder. -/
def hexVal (c : Char) : Option Nat :=
  if 48 ≤ c.toNat ∧ c.toNat ≤ 57 then some (c.toNat - 48)
  else if 97 ≤ c.toNat ∧ c.toNat ≤ 102 then some (c.toNat - 87)
  else if 65 ≤ c.toNat ∧ c.toNat ≤ 70 then some (c.toNat - 55)
  else none

/-- Go `encoding/json` string escaping (HTML escaping on, as with
`json.Marshal`): quote and backslash get backslash escapes, newline /
carriage return / tab get their two-character escapes, other control
characters and the HTML-sensitive characters and U+2028/U+2029 get a
lower-case hexadecimal escape, everything else is literal. -/
def escapeChar (c : Char) : List Char :=
  if c = '"' then ['\\', '"']
  else if c = '\\' then ['\\', '\\']
  else if c = '\n' then ['\\', 'n']
  else if c = '\r' then ['\\', 'r']
  else if c = '\t' then ['\\', 't']
  else if c.toNat < 0x20 ∨ c = '<' ∨ c = '>' ∨ c = '&'
      ∨ c.toNat = 0x2028 ∨ c.toNat = 0x2029 then
    ['\\', 'u', hexDigit (c.toNat / 4096 % 16), hexDigit (c.toNat / 256 % 16),
      hexDigit (c.toNat / 16 % 16), hexDigit (c.toNat % 16)]
  else [c]

/-- Model of `json.Marshal` applied to a string value. -/
def jsonQuote (s : String) : String :=
  ⟨'"' :: (s.data.flatMap escapeChar ++ ['"'])⟩

/-- One step of Go's JSON string decoder: decode a single character or
backslash escape (including `\uXXXX` with surrogate-pair combination; an
unpaired surrogate becomes U+FFFD), returning the decoded character and
how many input characters beyond the first were consumed.  A closing quote
and unescaped control characters are not characters of the decoded string
and fail here. -/
def unqStep : List Char → Option (Char × Nat)
  | [] => none
  | c :: rest =>
    if c = '\\' then
      match rest with
      | [] => none
      | e :: rest2 =>
        if e = '"' then some ('"', 1)
        else if e = '\\' then some ('\\', 1)
        else if e = '/' then some ('/', 1)
        else if e = Char.ofNat 39 then some (Char.ofNat 39, 1)
        else if e = 'b' then some (Char.ofNat 8, 1)
        else if e = 'f' then some (Char.ofNat 12, 1)
        else if e = 'n' then some ('\n', 1)
        else if e = 'r' then some ('\r', 1)
        else if e = 't' then some ('\t', 1)
        else if e = 'u' then
          match rest2 with
          | h1 :: h2 :: h3 :: h4 :: rest3 =>
            match hexVal h1, hexVal h2, hexVal h3, hexVal h4 with
            | some a, some b, some c1, some d =>
              let v := a * 4096 + b * 256 + c1 * 16 + d
              if 0xD800 ≤ v ∧ v < 0xE000 then
                match rest3 with
                | b1 :: u2 :: j1 :: j2 :: j3 :: j4 :: _ =>
                  if b1 = '\\' ∧ u2 = 'u' then
                    match hexVal j1, hexVal j2, hexVal j3, hexVal j4 with
                    | some a2, some b2, some c2, some d2 =>
                      let w := a2 * 4096 + b2 * 256 + c2 * 16 + d2
                      if v < 0xDC00 ∧ 0xDC00 ≤ w ∧ w < 0xE000 then
                        some (Char.ofNat (0x10000 + (v - 0xD800) * 0x400 + (w - 0xDC00)), 11)
                      else some (Char.ofNat 0xFFFD, 5)
                    | _, _, _, _ => some (Char.ofNat 0xFFFD, 5)
                  else some (Char.ofNat 0xFFFD, 5)
                | _ => some (Char.ofNat 0xFFFD, 5)
              else some (Char.ofNat v, 5)
            | _, _, _, _ => none
          | _ => none
        else none
    else if c = '"' then none
    else if c.toNat < 0x20 then none
    else some (c, 0)

/-- Decode loop of Go's JSON string decoder, on the characters after the
opening quote: a closing quote must end the input, every other character
or escape is decoded by `unqStep` and the consumed input dropped. -/
def unqLoop : List Char → Option (List Char)
  | [] => none
  | c :: rest =>
    if c = '"' then if rest.isEmpty then some [] else none
    else
      match unqStep (c :: rest) with
      | none => none
      | some (d, k) => (unqLoop (rest.drop k)).map (fun l => d :: l)
termination_by l => l.length
decreasing_by simp only [List.length_cons, List.length_drop]; omega

/-- Model of `json.Unmarshal` into a Go string variable: the input must be
a quoted JSON string with nothing after the closing quote. -/
def jsonUnquote (s : String) : Option String :=
  match s.data with
  | '"' :: rest => (unqLoop rest).map String.mk
  | _ => none

/-- Error values the program distinguishes.  `notExist` is the file-not-found
error recognised by `os.IsNotExist`; `offline` is the sentinel `ErrOffline`
(src/main.go line 101); the remaining constructors carry errors the program
merely propagates. -/
inductive GoErr where
  | notExist
  | io (msg : String)
  | offline
  | net (msg : String)
  | decode (msg : String)
  | parseFail (msg : String)
  deriving DecidableEq, Repr

/-- Model of `os.IsNotExist` on the errors of this development. -/
def GoErr.isNotExist : GoErr → Bool
  | .notExist => true
  | _ => false

/-- Go method `JsonURL.MarshalJSON` (src/main.go lines 22-24):
`json.Marshal(j.u.String())`.  On the zero value the inner `String()`
dereferences a nil pointer, modelled by `none`. -/
def JsonURL.MarshalJSON (j : JsonURL) : Option String :=
  j.u.map fun u => jsonQuote u.str

/-- Go method `JsonURL.UnmarshalJSON` (src/main.go lines 26-35): decode the
bytes as a JSON string, then `url.Parse` it; the receiver is updated with
the parse result (nil on a parse error) and the first failing step's error
is returned. -/
def JsonURL.UnmarshalJSON (j : JsonURL) (b : String) : JsonURL × Option GoErr :=
  match jsonUnquote b with
  | none => (j, some (.decode "json: cannot unmarshal value into string"))
  | some s =>
    match urlParse s with
    | none => (⟨none⟩, some (.parseFail s))
    | some u => (⟨some u⟩, none)

/-- The `Tag` struct of src/main.go (lines 54-59). -/
structure Tag where
  Url : JsonURL
  Href : JsonURL
  Name : String
  Slug : String
  deriving DecidableEq, Repr

/-- The `BookEssential` struct of src/main.go (lines 41-52): one work
summary from the listing. -/
structure BookEssential where
  Epoch : String
  Kind : String
  Genre : String
  Url : JsonURL
  Href : JsonURL
  Slug : String
  Author : String
  Title : String
  deriving DecidableEq, Repr

/-- The `BookDetails` struct of src/main.go (lines 61-82): the full work
detail record with per-format download links. -/
structure BookDetails where
  Authors : List Tag
  Epochs : List Tag
  Kinds : List Tag
  Genres : List Tag
  Slug : String
  Title : String
  Parent : Option BookEssential
  Children : List BookEssential
  URL : JsonURL
  Txt : JsonURL
  Xml : JsonURL
  Html : JsonURL
  Fb2 : JsonURL
  Epub : JsonURL
  Mobi : JsonURL
  Pdf : JsonURL
  deriving DecidableEq, Repr

/-- The Go zero value of `BookDetails` (nil slices and pointers, empty
strings, zero `JsonURL`s). -/
def BookDetails.zero : BookDetails :=
  ⟨[], [], [], [], "", "", none, [], ⟨none⟩,
    ⟨none⟩, ⟨none⟩, ⟨none⟩, ⟨none⟩, ⟨none⟩, ⟨none⟩, ⟨none⟩⟩

/-- Outcome of `httpClient.Get` followed by `ioutil.ReadAll`: either a
failure (with the partial bytes `ReadAll` may have produced) or the full
response body. -/
inductive NetOutcome where
  | failure (part : Option String) (e : GoErr)
  | success (body : String)

/-- The local filesystem state: what `ioutil.ReadFile` returns for each
path, and which directories exist. -/
structure FS where
  files : String → Except GoErr String
  dirs : String → Bool

/-- Effect of a successful `ioutil.WriteFile`. -/
def FS.writeFile (fs : FS) (p c : String) : FS :=
  { fs with files := fun q => if q = p then Except.ok c else fs.files q }

/-- Environment of the run: the offline flag, the behaviour of the network
for each URL string, which writes and directory creations fail, and the
result of `json.Unmarshal` of given bytes into a zero `BookDetails`
(possibly partially filled alongside an error, as in Go). -/
structure Env where
  offline : Bool
  net : String → NetOutcome
  writeErr : String → Option GoErr
  mkdirErr : String → Option GoErr
  decodeDetails : Option String → BookDetails × Option GoErr

/-- Result of a `cachedFile` call: the returned byte slice (`none` = nil),
the returned error, the filesystem afterwards, the URLs fetched over the
network, and the `(path, content)` pairs written. -/
structure CFResult where
  content : Option String
  err : Option GoErr
  fs : FS
  gets : List String
  writes : List (String × String)

/-- The `books.json` constant of src/main.go (line 102). -/
def BooksFile : String := "books.json"

/-- The `details.json` constant of src/main.go (line 104). -/
def DetailsFile : String := "details.json"

/-- Model of Go `path.Join` on the clean, slash-free components this
program uses (slugs and fixed file names). -/
def pathJoin (a b : String) : String :=
  if a = "" then b else if b = "" then a else a ++ "/" ++ b

/-- The `cachedFile` function of src/main.go (lines 107-138): read the
local file; on success return it; propagate any non-not-exist read error;
on a missing file fail with `ErrOffline` when offline, otherwise GET the
origin URL, write the body to the path (a write failure is returned
alongside the fetched bytes) and return the body.  `none` models the panic
of `originUrl.String()` on a nil URL. -/
def cachedFile (env : Env) (fs : FS) (filePath : String) (originUrl : Option GoURL) :
    Option CFResult :=
  match fs.files filePath with
  | .ok content => some ⟨some content, none, fs, [], []⟩
  | .error e =>
    if !e.isNotExist then some ⟨none, some e, fs, [], []⟩
    else if env.offline then some ⟨none, some .offline, fs, [], []⟩
    else
      match originUrl with
      | none => none
      | some u =>
        match env.net u.str with
        | .failure part e => some ⟨part, some e, fs, [u.str], []⟩
        | .success body =>
          match env.writeErr filePath with
          | some e => some ⟨some body, some e, fs, [u.str], []⟩
          | none => some ⟨some body, none, fs.writeFile filePath body, [u.str], [(filePath, body)]⟩

/-- Go method `BookDetails.Files` (src/main.go lines 184-210): build the
map from `<slug>.<extension>` to the format URL for every format whose URL
string form is non-empty.  The Go map is modelled as an association list in
insertion order (all keys are distinct); `none` models the nil-pointer
panic of `String()` on an unparsed format field. -/
def BookDetails.Files (b : BookDetails) : Option (List (String × JsonURL)) := do
  let txt ← b.Txt.string
  let xml ← b.Xml.string
  let html ← b.Html.string
  let fb2 ← b.Fb2.string
  let epub ← b.Epub.string
  let mobi ← b.Mobi.string
  let pdf ← b.Pdf.string
  pure ((if txt ≠ "" then [(b.Slug ++ ".txt", b.Txt)] else []) ++
    (if xml ≠ "" then [(b.Slug ++ ".xml", b.Xml)] else []) ++
    (if html ≠ "" then [(b.Slug ++ ".html", b.Html)] else []) ++
    (if fb2 ≠ "" then [(b.Slug ++ ".fb2", b.Fb2)] else []) ++
    (if epub ≠ "" then [(b.Slug ++ ".epub", b.Epub)] else []) ++
    (if mobi ≠ "" then [(b.Slug ++ ".mobi", b.Mobi)] else []) ++
    (if pdf ≠ "" then [(b.Slug ++ ".pdf", b.Pdf)] else []))

/-- Result of a `Details` call: the returned `BookDetails` and error plus
the filesystem and effect logs. -/
structure DetResult where
  book : BookDetails
  err : Option GoErr
  fs : FS
  gets : List String
  writes : List (String × String)

/-- Go method `BookEssential.Details` (src/main.go lines 150-161): fetch
`<slug>/details.json` from `b.Href` via `cachedFile`, JSON-decode into a
zero `BookDetails`, and stamp the summary's slug into the result on every
return path (the deferred assignment). -/
def BookEssential.Details (b : BookEssential) (env : Env) (fs : FS) : Option DetResult :=
  match cachedFile env fs (pathJoin b.Slug DetailsFile) b.Href.u with
  | none => none
  | some r =>
    match r.err with
    | some e => some ⟨{ BookDetails.zero with Slug := b.Slug }, some e, r.fs, r.gets, r.writes⟩
    | none =>
      let dec := env.decodeDetails r.content
      some ⟨{ dec.1 with Slug := b.Slug }, dec.2, r.fs, r.gets, r.writes⟩

/-- Termination status of a code path that may call `log.Fatal` (process
abort) or hit a nil-pointer panic. -/
inductive Outcome (α : Type) where
  | ok (a : α)
  | fatal (e : GoErr)
  | panicked

/-- Effect of `os.Mkdir(name, 0755)` with the "already exists" error
tolerated, as in src/main.go lines 164-167. -/
def FS.mkdir (fs : FS) (env : Env) (name : String) : Except GoErr FS :=
  if fs.dirs name then Except.ok fs
  else
    match env.mkdirErr name with
    | some e => Except.error e
    | none => Except.ok { fs with dirs := fun d => if d = name then true else fs.dirs d }

/-- The per-file loop of `ObtainBook` (src/main.go lines 174-179): fetch
each resolved file at `<slug>/<fileName>` via `cachedFile`; any failure is
fatal. -/
def obtainFiles (env : Env) (slug : String) :
    FS → List String → List (String × String) → List (String × JsonURL) →
    Outcome (FS × List String × List (String × String))
  | fs, gacc, wacc, [] => .ok (fs, gacc, wacc)
  | fs, gacc, wacc, (fileName, ju) :: rest =>
    match cachedFile env fs (pathJoin slug fileName) ju.u with
    | none => .panicked
    | some r =>
      match r.err with
      | some e => .fatal e
      | none => obtainFiles env slug r.fs (gacc ++ r.gets) (wacc ++ r.writes) rest

/-- Result of an `ObtainBook` call. -/
structure OBResult where
  book : BookDetails
  fs : FS
  gets : List String
  writes : List (String × String)

/-- Go method `BookEssential.ObtainBook` (src/main.go lines 163-182):
ensure the slug directory exists, load the detail record, resolve the
format files and fetch each one; every surfaced error is fatal. -/
def BookEssential.ObtainBook (b : BookEssential) (env : Env) (fs : FS) : Outcome OBResult :=
  match fs.mkdir env b.Slug with
  | .error e => .fatal e
  | .ok fs1 =>
    match b.Details env fs1 with
    | none => .panicked
    | some res =>
      match res.err with
      | some e => .fatal e
      | none =>
        match res.book.Files with
        | none => .panicked
        | some l =>
          match obtainFiles env b.Slug res.fs res.gets res.writes l with
          | .panicked => .panicked
          | .fatal e => .fatal e
          | .ok (fs2, g, w) => .ok ⟨res.book, fs2, g, w⟩

/-- The `ApiBooksUrl` constant of src/main.go (line 103). -/
def ApiBooksUrl : GoURL := ⟨"https://wolnelektury.pl/api/books/"⟩

/-- A filesystem whose cache holds the listing file. -/
def fsHit : FS :=
  ⟨fun q => if q = BooksFile then Except.ok "cached-listing" else Except.error .notExist,
    fun _ => false⟩

/-- A filesystem on which reading `secret.txt` fails with a permission
error. -/
def fsPerm : FS :=
  ⟨fun q => if q = "secret.txt" then Except.error (.io "permission denied")
    else Except.error .notExist, fun _ => false⟩

/-- The empty filesystem. -/
def fsEmpty : FS := ⟨fun _ => Except.error .notExist, fun _ => false⟩

/-- An online environment whose network always fails and whose decoder
always errors. -/
def envPlain : Env :=
  ⟨false, fun _ => .failure none (.net "unreachable"), fun _ => none, fun _ => none,
    fun _ => (BookDetails.zero, some (.decode "unexpected end of JSON input"))⟩

/-- The offline environment. -/
def envOff : Env :=
  ⟨true, fun _ => .failure none (.net "unreachable"), fun _ => none, fun _ => none,
    fun _ => (BookDetails.zero, some (.decode "unexpected end of JSON input"))⟩

/-- An online environment serving the listing URL, with all writes
succeeding and a decoder that always succeeds with the zero record. -/
def envNet : Env :=
  ⟨false,
    fun t => if t = ApiBooksUrl.str then .success "[]" else .failure none (.net "404"),
    fun _ => none, fun _ => none, fun _ => (BookDetails.zero, none)⟩

/-- Like `envNet` but writing the listing file fails. -/
def envWFail : Env :=
  { envNet with writeErr := fun p => if p = BooksFile then some (.io "disk full") else none }

/-- A `JsonURL` wrapping a parsed empty string (the upstream encoding of
an absent format). -/
def juEmpty : JsonURL := ⟨some ⟨""⟩⟩

/-- The format URL of the file-set resolution example. -/
def exTxtURL : JsonURL := ⟨some ⟨"http://x/a.txt"⟩⟩

/-- The work detail of the file-set resolution example: slug `foo`, only
the text format present, every other format an empty string. -/
def exBook : BookDetails :=
  ⟨[], [], [], [], "foo", "", none, [], juEmpty,
    exTxtURL, juEmpty, juEmpty, juEmpty, juEmpty, juEmpty, juEmpty⟩

/-- A work summary used by the orchestration examples. -/
def bEx : BookEssential :=
  ⟨"", "", "", juEmpty, ⟨some ⟨"https://wolnelektury.pl/api/books/lorem/"⟩⟩,
    "lorem", "anon", "Lorem"⟩

/-- A decoded detail record with text and pdf formats present. -/
def bookTP : BookDetails :=
  ⟨[], [], [], [], "", "Lorem", none, [], juEmpty,
    ⟨some ⟨"http://x/t.txt"⟩⟩, juEmpty, juEmpty, juEmpty, juEmpty, juEmpty,
    ⟨some ⟨"http://x/p.pdf"⟩⟩⟩

/-- A fully populated cache for `bEx` with `bookTP` as its decoded
detail: the slug directory, the detail file and both resolved format
files are present. -/
def fsFull : FS :=
  ⟨fun q =>
    if q = "lorem/details.json" then Except.ok "DETJSON"
    else if q = "lorem/lorem.txt" then Except.ok "TEXT"
    else if q = "lorem/lorem.pdf" then Except.ok "PDF"
    else Except.error .notExist,
    fun d => d = "lorem"⟩

/-- The environment of the idempotence example: its decoder yields
`bookTP` for the cached detail bytes. -/
def envFull : Env :=
  ⟨false, fun _ => .failure none (.net "unreachable"), fun _ => none, fun _ => none,
    fun c => if c = some "DETJSON" then (bookTP, none)
      else (BookDetails.zero, some (.decode "unexpected end of JSON input"))⟩

/-- The `Details` result of `bEx` on the fully populated cache. -/
def dRes : DetResult :=
  ⟨{ bookTP with Slug := "lorem" }, none, fsFull, [], []⟩

/-- The `Details` result of `bEx` on the empty filesystem while offline. -/
def dResOff : DetResult :=
  ⟨{ BookDetails.zero with Slug := "lorem" }, some .offline, fsEmpty, [], []⟩

/-- A catalog URL whose string form exercises the JSON escaping of `&`. -/
def exRoundURL : GoURL := ⟨"https://wolnelektury.pl/api/books/?after=a&count=10"⟩

/-- Claim C1: for every local path that exists and is readable, `cachedFile`
returns exactly the file's full contents, performs zero network calls, and
causes no observable filesystem side effect. -/
theorem claim_C1_cachedFile_cache_hit (env : Env) (fs : FS) (p : String)
    (u : Option GoURL) (c : String) (h : fs.files p = Except.ok c) :
    cachedFile env fs p u = some ⟨some c, none, fs, [], []⟩ := by
  simp [cachedFile, h]

/-- Witness for C1 at a concrete cache hit on the listing file. -/
theorem claim_C1_witness :
    cachedFile envPlain fsHit BooksFile none =
      some ⟨some "cached-listing", none, fsHit, [], []⟩ :=
  claim_C1_cachedFile_cache_hit envPlain fsHit BooksFile none "cached-listing" rfl

/-- Claim C2: a local read failure whose cause is not "file does not exist"
is propagated by `cachedFile` exactly as it is, with nil content, zero
network calls and zero writes. -/
theorem claim_C2_cachedFile_read_error (env : Env) (fs : FS) (p : String)
    (u : Option GoURL) (e : GoErr) (h : fs.files p = Except.error e)
    (hne : e.isNotExist = false) :
    cachedFile env fs p u = some ⟨none, some e, fs, [], []⟩ := by
  simp [cachedFile, h, hne]

/-- Witness for C2 at a concrete permission error. -/
theorem claim_C2_witness :
    cachedFile envPlain fsPerm "secret.txt" none =
      some ⟨none, some (.io "permission denied"), fsPerm, [], []⟩ :=
  claim_C2_cachedFile_read_error envPlain fsPerm "secret.txt" none
    (.io "permission denied") rfl rfl

/-- Claim C3: in offline mode, `cachedFile` on a path that does not exist
returns the distinct `ErrOffline` error with no bytes, zero network calls
and zero filesystem writes. -/
theorem claim_C3_cachedFile_offline (env : Env) (fs : FS) (p : String)
    (u : Option GoURL) (hoff : env.offline = true)
    (h : fs.files p = Except.error .notExist) :
    cachedFile env fs p u = some ⟨none, some .offline, fs, [], []⟩ := by
  simp [cachedFile, h, GoErr.isNotExist, hoff]

/-- Witness for C3 at a concrete cache miss while offline. -/
theorem claim_C3_witness :
    cachedFile envOff fsEmpty (pathJoin "lorem" DetailsFile) none =
      some ⟨none, some .offline, fsEmpty, [], []⟩ :=
  claim_C3_cachedFile_offline envOff fsEmpty (pathJoin "lorem" DetailsFile) none rfl rfl

/-- Claim C4: in online mode, `cachedFile` on a path that does not exist
performs exactly one GET to the given remote URL and, when the write
succeeds, writes the full response body verbatim to the path (readable
afterwards, nothing else touched) and returns those bytes; when the write
fails, the write error is returned alongside the already-fetched bytes. -/
theorem claim_C4_cachedFile_fetch (env : Env) (fs : FS) (p : String)
    (u : GoURL) (body : String) (q : String) (hoff : env.offline = false)
    (h : fs.files p = Except.error .notExist)
    (hnet : env.net u.str = .success body) (hq : q ≠ p) :
    (env.writeErr p = none →
      cachedFile env fs p (some u) =
        some ⟨some body, none, fs.writeFile p body, [u.str], [(p, body)]⟩ ∧
      (fs.writeFile p body).files p = Except.ok body ∧
      (fs.writeFile p body).files q = fs.files q ∧
      (fs.writeFile p body).dirs = fs.dirs) ∧
    (env.writeErr p ≠ none →
      cachedFile env fs p (some u) =
        some ⟨some body, env.writeErr p, fs, [u.str], []⟩) := by
  constructor
  · intro hw
    refine ⟨by simp [cachedFile, h, GoErr.isNotExist, hoff, hnet, hw], ?_, ?_, rfl⟩
    · simp [FS.writeFile]
    · simp [FS.writeFile, hq]
  · intro hw
    rcases hwe : env.writeErr p with _ | we
    · exact absurd hwe hw
    · simp [cachedFile, h, GoErr.isNotExist, hoff, hnet, hwe]

/-- Witness for C4: a concrete fetch of the listing with a succeeding
write, and one with a failing write. -/
theorem claim_C4_witness :
    (cachedFile envNet fsEmpty BooksFile (some ApiBooksUrl) =
      some ⟨some "[]", none, fsEmpty.writeFile BooksFile "[]",
        [ApiBooksUrl.str], [(BooksFile, "[]")]⟩ ∧
     (fsEmpty.writeFile BooksFile "[]").files BooksFile = Except.ok "[]" ∧
     (fsEmpty.writeFile BooksFile "[]").files "other" = fsEmpty.files "other") ∧
    cachedFile envWFail fsEmpty BooksFile (some ApiBooksUrl) =
      some ⟨some "[]", some (.io "disk full"), fsEmpty, [ApiBooksUrl.str], []⟩ := by
  have h1 := (claim_C4_cachedFile_fetch envNet fsEmpty BooksFile ApiBooksUrl "[]"
    "other" rfl rfl rfl (by decide)).1 rfl
  have h2 := (claim_C4_cachedFile_fetch envWFail fsEmpty BooksFile ApiBooksUrl "[]"
    "other" rfl rfl rfl (by decide)).2 (by decide)
  exact ⟨⟨h1.1, h1.2.1, h1.2.2.1⟩, h2⟩


/-- Membership in a conditional singleton list. -/
theorem mem_ite_singleton {α : Type} (c : Prop) [Decidable c] (a x : α) :
    (x ∈ if c then [a] else []) ↔ c ∧ x = a := by
  split <;> simp_all

/-- Claim C5: on a detail record whose seven format fields all wrap parsed
URLs, `Files` returns a mapping holding the key `<slug>.<extension>` bound
to the corresponding URL for exactly those formats whose URL string form is
non-empty, and nothing else. -/
theorem claim_C5_Files_exact (b : BookDetails)
    (t x hl f e m p : GoURL)
    (h1 : b.Txt.u = some t) (h2 : b.Xml.u = some x) (h3 : b.Html.u = some hl)
    (h4 : b.Fb2.u = some f) (h5 : b.Epub.u = some e) (h6 : b.Mobi.u = some m)
    (h7 : b.Pdf.u = some p) (l : List (String × JsonURL))
    (hfl : b.Files = some l) (k : String) (v : JsonURL) :
    (k, v) ∈ l ↔
      (t.str ≠ "" ∧ k = b.Slug ++ ".txt" ∧ v = b.Txt) ∨
      (x.str ≠ "" ∧ k = b.Slug ++ ".xml" ∧ v = b.Xml) ∨
      (hl.str ≠ "" ∧ k = b.Slug ++ ".html" ∧ v = b.Html) ∨
      (f.str ≠ "" ∧ k = b.Slug ++ ".fb2" ∧ v = b.Fb2) ∨
      (e.str ≠ "" ∧ k = b.Slug ++ ".epub" ∧ v = b.Epub) ∨
      (m.str ≠ "" ∧ k = b.Slug ++ ".mobi" ∧ v = b.Mobi) ∨
      (p.str ≠ "" ∧ k = b.Slug ++ ".pdf" ∧ v = b.Pdf) := by
  have hb : b.Files = some
      ((if t.str ≠ "" then [(b.Slug ++ ".txt", b.Txt)] else []) ++
       (if x.str ≠ "" then [(b.Slug ++ ".xml", b.Xml)] else []) ++
       (if hl.str ≠ "" then [(b.Slug ++ ".html", b.Html)] else []) ++
       (if f.str ≠ "" then [(b.Slug ++ ".fb2", b.Fb2)] else []) ++
       (if e.str ≠ "" then [(b.Slug ++ ".epub", b.Epub)] else []) ++
       (if m.str ≠ "" then [(b.Slug ++ ".mobi", b.Mobi)] else []) ++
       (if p.str ≠ "" then [(b.Slug ++ ".pdf", b.Pdf)] else [])) := by
    simp only [BookDetails.Files, JsonURL.string, h1, h2, h3, h4, h5, h6, h7,
      Option.map_some', Option.bind_eq_bind, Option.some_bind, Option.pure_def]
  rw [hfl] at hb
  rw [Option.some.inj hb]
  simp only [List.mem_append, mem_ite_singleton, Prod.mk.injEq, or_assoc, and_assoc]

/-- Witness for C5 at the example of the specification: slug `foo`, a
`txt` link of `http://x/a.txt`, every other format an empty string; the
mapping is exactly the single `foo.txt` entry. -/
theorem claim_C5_witness :
    (("foo.txt", exTxtURL) ∈ [("foo.txt", exTxtURL)] ↔
      ((GoURL.mk "http://x/a.txt").str ≠ "" ∧ "foo.txt" = exBook.Slug ++ ".txt" ∧
          exTxtURL = exBook.Txt) ∨
      ((GoURL.mk "").str ≠ "" ∧ "foo.txt" = exBook.Slug ++ ".xml" ∧ exTxtURL = exBook.Xml) ∨
      ((GoURL.mk "").str ≠ "" ∧ "foo.txt" = exBook.Slug ++ ".html" ∧ exTxtURL = exBook.Html) ∨
      ((GoURL.mk "").str ≠ "" ∧ "foo.txt" = exBook.Slug ++ ".fb2" ∧ exTxtURL = exBook.Fb2) ∨
      ((GoURL.mk "").str ≠ "" ∧ "foo.txt" = exBook.Slug ++ ".epub" ∧ exTxtURL = exBook.Epub) ∨
      ((GoURL.mk "").str ≠ "" ∧ "foo.txt" = exBook.Slug ++ ".mobi" ∧ exTxtURL = exBook.Mobi) ∨
      ((GoURL.mk "").str ≠ "" ∧ "foo.txt" = exBook.Slug ++ ".pdf" ∧ exTxtURL = exBook.Pdf)) :=
  claim_C5_Files_exact exBook ⟨"http://x/a.txt"⟩ ⟨""⟩ ⟨""⟩ ⟨""⟩ ⟨""⟩ ⟨""⟩ ⟨""⟩
    rfl rfl rfl rfl rfl rfl rfl [("foo.txt", exTxtURL)] rfl "foo.txt" exTxtURL

/-- Claim C9: `Files` panics (dereferences a nil `*url.URL`) exactly when
one of the seven per-format URL fields was never populated from JSON, i.e.
holds a nil inner pointer; it is safe precisely when every format field
wraps a parsed URL. -/
theorem claim_C9_Files_nil_panic (b : BookDetails) :
    b.Files = none ↔
      b.Txt.u = none ∨ b.Xml.u = none ∨ b.Html.u = none ∨ b.Fb2.u = none ∨
      b.Epub.u = none ∨ b.Mobi.u = none ∨ b.Pdf.u = none := by
  rcases h1 : b.Txt.u with _ | t <;> rcases h2 : b.Xml.u with _ | x <;>
    rcases h3 : b.Html.u with _ | hl <;> rcases h4 : b.Fb2.u with _ | f <;>
    rcases h5 : b.Epub.u with _ | e <;> rcases h6 : b.Mobi.u with _ | m <;>
    rcases h7 : b.Pdf.u with _ | p <;>
    simp only [BookDetails.Files, JsonURL.string, h1, h2, h3, h4, h5, h6, h7,
      Option.map_none', Option.map_some', Option.bind_eq_bind, Option.none_bind,
      Option.some_bind, Option.pure_def] <;>
    simp

/-- Claim C7: `Details` calls the cached-fetch primitive with the path
`summary.slug` joined with the fixed detail filename and the summary's
detail URL, decodes the bytes into a `BookDetails`, and the returned
detail's slug equals the summary's slug regardless of the slug the decoded
JSON contained. -/
theorem claim_C7_Details_contract (b : BookEssential) (env : Env) (fs : FS)
    (res : DetResult) (h : b.Details env fs = some res) :
    res.book.Slug = b.Slug ∧
    ∃ r, cachedFile env fs (pathJoin b.Slug DetailsFile) b.Href.u = some r ∧
      res.fs = r.fs ∧ res.gets = r.gets ∧ res.writes = r.writes ∧
      (∀ e, r.err = some e → res.err = some e) ∧
      (r.err = none →
        res.book = { (env.decodeDetails r.content).1 with Slug := b.Slug } ∧
        res.err = (env.decodeDetails r.content).2) := by
  unfold BookEssential.Details at h
  rcases hcf : cachedFile env fs (pathJoin b.Slug DetailsFile) b.Href.u with _ | r
  · rw [hcf] at h; exact absurd h (by simp)
  · rw [hcf] at h
    obtain ⟨cc, ce, cfs, cg, cw⟩ := r
    rcases ce with _ | e
    · dsimp only at h
      obtain rfl := Option.some.inj h
      refine ⟨rfl, ⟨cc, none, cfs, cg, cw⟩, rfl, rfl, rfl, rfl, ?_, ?_⟩
      · intro e he; exact absurd he (by simp)
      · intro _; exact ⟨rfl, rfl⟩
    · dsimp only at h
      obtain rfl := Option.some.inj h
      refine ⟨rfl, ⟨cc, some e, cfs, cg, cw⟩, rfl, rfl, rfl, rfl, ?_, ?_⟩
      · intro e' he'; exact he'
      · intro hn; exact absurd hn (by simp)

/-- Witness for C7: on the fully populated cache the returned detail's
slug is the summary's slug even though the decoded record carried a
different (empty) slug. -/
theorem claim_C7_witness : dRes.book.Slug = bEx.Slug ∧ bookTP.Slug ≠ bEx.Slug :=
  ⟨(claim_C7_Details_contract bEx envFull fsFull dRes rfl).1, by decide⟩

/-- Claim C10: when `Details` fails, the returned detail still has its
slug stamped with the summary's slug (the deferred back-fill runs on every
return path), and on a cached-fetch error every other field of the
returned detail is the zero value and the error is the fetch error. -/
theorem claim_C10_Details_error (b : BookEssential) (env : Env) (fs : FS)
    (res : DetResult) (h : b.Details env fs = some res)
    (he : res.err.isSome = true) :
    res.book.Slug = b.Slug ∧
    (∀ r, cachedFile env fs (pathJoin b.Slug DetailsFile) b.Href.u = some r →
      ∀ e, r.err = some e →
        res.book = { BookDetails.zero with Slug := b.Slug } ∧ res.err = some e) := by
  unfold BookEssential.Details at h
  rcases hcf : cachedFile env fs (pathJoin b.Slug DetailsFile) b.Href.u with _ | r
  · rw [hcf] at h; exact absurd h (by simp)
  · rw [hcf] at h
    obtain ⟨cc, ce, cfs, cg, cw⟩ := r
    rcases ce with _ | e
    · dsimp only at h
      obtain rfl := Option.some.inj h
      refine ⟨rfl, ?_⟩
      intro r' hr' e' he'
      obtain rfl := Option.some.inj hr'
      exact absurd he' (by simp)
    · dsimp only at h
      obtain rfl := Option.some.inj h
      refine ⟨rfl, ?_⟩
      intro r' hr' e' he'
      obtain rfl := Option.some.inj hr'
      exact ⟨rfl, he'⟩

/-- Witness for C10: the offline cache miss yields the offline error with
a zero detail record carrying the stamped slug. -/
theorem claim_C10_witness :
    dResOff.book.Slug = bEx.Slug ∧
    dResOff.book = { BookDetails.zero with Slug := "lorem" } ∧
    dResOff.err = some .offline := by
  obtain ⟨h1, h2⟩ := claim_C10_Details_error bEx envOff fsEmpty dResOff rfl rfl
  obtain ⟨h3, h4⟩ := h2 ⟨none, some .offline, fsEmpty, [], []⟩ rfl .offline rfl
  exact ⟨h1, h3, h4⟩

/-- On a list of files that are all cache hits, the per-file loop changes
nothing and logs no effects. -/
theorem obtainFiles_cache_hits (env : Env) (slug : String) (fs : FS)
    (gacc : List String) (wacc : List (String × String))
    (l : List (String × JsonURL))
    (h : ∀ fn ju, (fn, ju) ∈ l → ∃ cc, fs.files (pathJoin slug fn) = Except.ok cc) :
    obtainFiles env slug fs gacc wacc l = .ok (fs, gacc, wacc) := by
  induction l generalizing gacc wacc with
  | nil => rfl
  | cons hd tl ih =>
    obtain ⟨fn, ju⟩ := hd
    obtain ⟨cc, hcc⟩ := h fn ju (List.mem_cons_self _ _)
    rw [obtainFiles,
      show cachedFile env fs (pathJoin slug fn) ju.u = some ⟨some cc, none, fs, [], []⟩
        from by simp [cachedFile, hcc]]
    dsimp only
    rw [List.append_nil, List.append_nil]
    exact ih gacc wacc (fun fn' ju' h' => h fn' ju' (List.mem_cons_of_mem _ h'))

/-- Claim C8: on a summary whose cache is fully populated (slug directory
present, detail file cached and decodable, every resolved format file
readable), `ObtainBook` succeeds with zero network calls and zero writes
and leaves the filesystem unchanged; hence a second consecutive call does
the same (idempotence). -/
theorem claim_C8_ObtainBook_idempotent (b : BookEssential) (env : Env) (fs : FS)
    (c : String) (d : BookDetails) (l : List (String × JsonURL))
    (hdir : fs.dirs b.Slug = true)
    (hdet : fs.files (pathJoin b.Slug DetailsFile) = Except.ok c)
    (hdec : env.decodeDetails (some c) = (d, none))
    (hfiles : ({ d with Slug := b.Slug } : BookDetails).Files = some l)
    (hcached : ∀ fn ju, (fn, ju) ∈ l → ∃ cc, fs.files (pathJoin b.Slug fn) = Except.ok cc) :
    b.ObtainBook env fs = .ok ⟨{ d with Slug := b.Slug }, fs, [], []⟩ ∧
    (∀ r1, b.ObtainBook env fs = Outcome.ok r1 →
      b.ObtainBook env r1.fs = .ok ⟨r1.book, r1.fs, [], []⟩) := by
  have hdetails : b.Details env fs = some ⟨{ d with Slug := b.Slug }, none, fs, [], []⟩ := by
    unfold BookEssential.Details
    rw [show cachedFile env fs (pathJoin b.Slug DetailsFile) b.Href.u =
        some ⟨some c, none, fs, [], []⟩ from by simp [cachedFile, hdet]]
    dsimp only
    simp only [hdec]
  have hob : b.ObtainBook env fs = .ok ⟨{ d with Slug := b.Slug }, fs, [], []⟩ := by
    unfold BookEssential.ObtainBook
    rw [show fs.mkdir env b.Slug = Except.ok fs from by simp [FS.mkdir, hdir]]
    dsimp only
    rw [hdetails]
    dsimp only
    rw [hfiles]
    dsimp only
    rw [obtainFiles_cache_hits env b.Slug fs [] [] l hcached]
  refine ⟨hob, ?_⟩
  intro r1 h1
  rw [hob] at h1
  obtain rfl := Outcome.ok.inj h1
  exact hob

/-- Witness for C8: the fully populated `lorem` cache is obtained with no
network calls, no writes and an unchanged filesystem. -/
theorem claim_C8_witness :
    bEx.ObtainBook envFull fsFull =
      .ok ⟨{ bookTP with Slug := "lorem" }, fsFull, [], []⟩ :=
  (claim_C8_ObtainBook_idempotent bEx envFull fsFull "DETJSON" bookTP
    [("lorem.txt", ⟨some ⟨"http://x/t.txt"⟩⟩), ("lorem.pdf", ⟨some ⟨"http://x/p.pdf"⟩⟩)]
    rfl rfl rfl rfl
    (by
      intro fn ju h
      simp only [List.mem_cons, List.not_mem_nil, or_false,
        Prod.mk.injEq] at h
      rcases h with ⟨rfl, rfl⟩ | ⟨rfl, rfl⟩
      · exact ⟨"TEXT", rfl⟩
      · exact ⟨"PDF", rfl⟩)).1

/-- Decoding a hex digit emitted by the encoder gives back its value. -/
theorem hexVal_hexDigit (k : Nat) (h : k < 16) : hexVal (hexDigit k) = some k := by
  interval_cases k <;> rfl

/-- The decoder's step inverts a `\uXXXX` escape of a non-surrogate
code point. -/
theorem unqStep_u (n : Nat) (rest : List Char) (hn : n < 0xD800) :
    unqStep ('\\' :: 'u' :: hexDigit (n / 4096 % 16) :: hexDigit (n / 256 % 16) ::
      hexDigit (n / 16 % 16) :: hexDigit (n % 16) :: rest) = some (Char.ofNat n, 5) := by
  have e1 := hexVal_hexDigit (n / 4096 % 16) (Nat.mod_lt _ (by norm_num))
  have e2 := hexVal_hexDigit (n / 256 % 16) (Nat.mod_lt _ (by norm_num))
  have e3 := hexVal_hexDigit (n / 16 % 16) (Nat.mod_lt _ (by norm_num))
  have e4 := hexVal_hexDigit (n % 16) (Nat.mod_lt _ (by norm_num))
  have hv : n / 4096 % 16 * 4096 + n / 256 % 16 * 256 + n / 16 % 16 * 16 + n % 16 = n := by
    omega
  simp only [unqStep, reduceIte, e1, e2, e3, e4]
  rw [hv]
  rw [if_neg (show ¬(('u' : Char) = '\\') from by decide),
    if_neg (show ¬(('u' : Char) = '/') from by decide),
    if_neg (show ¬(('u' : Char) = Char.ofNat 39) from by decide),
    if_neg (show ¬(('u' : Char) = 'b') from by decide),
    if_neg (show ¬(('u' : Char) = 'f') from by decide),
    if_neg (show ¬(('u' : Char) = 'n') from by decide),
    if_neg (show ¬(('u' : Char) = 'r') from by decide),
    if_neg (show ¬(('u' : Char) = 't') from by decide),
    if_neg (show ¬(0xD800 ≤ n ∧ n < 0xE000) from by omega),
    if_neg (show ¬(('u' : Char) = '"') from by decide)]

/-- Unfolding of the decode loop on a character other than the closing
quote. -/
theorem unqLoop_cons (c0 : Char) (t : List Char) (hne : c0 ≠ '"') :
    unqLoop (c0 :: t) =
      match unqStep (c0 :: t) with
      | none => none
      | some (d, k) => (unqLoop (t.drop k)).map (fun l => d :: l) := by
  rw [unqLoop, if_neg hne]

/-- The decode loop inverts one encoder escape. -/
theorem unqLoop_escape (c : Char) (rest k : List Char) (h : unqLoop rest = some k) :
    unqLoop (escapeChar c ++ rest) = some (c :: k) := by
  by_cases h1 : c = '"'
  · subst h1
    show unqLoop ('\\' :: '"' :: rest) = some ('"' :: k)
    rw [unqLoop_cons _ _ (by decide),
      show unqStep ('\\' :: '"' :: rest) = some ('"', 1) from rfl]
    show (unqLoop rest).map (fun l => '"' :: l) = some ('"' :: k)
    rw [h]; rfl
  · by_cases h2 : c = '\\'
    · subst h2
      show unqLoop ('\\' :: '\\' :: rest) = some ('\\' :: k)
      rw [unqLoop_cons _ _ (by decide),
        show unqStep ('\\' :: '\\' :: rest) = some ('\\', 1) from rfl]
      show (unqLoop rest).map (fun l => '\\' :: l) = some ('\\' :: k)
      rw [h]; rfl
    · by_cases h3 : c = '\n'
      · subst h3
        show unqLoop ('\\' :: 'n' :: rest) = some ('\n' :: k)
        rw [unqLoop_cons _ _ (by decide),
          show unqStep ('\\' :: 'n' :: rest) = some ('\n', 1) from rfl]
        show (unqLoop rest).map (fun l => '\n' :: l) = some ('\n' :: k)
        rw [h]; rfl
      · by_cases h4 : c = '\r'
        · subst h4
          show unqLoop ('\\' :: 'r' :: rest) = some ('\r' :: k)
          rw [unqLoop_cons _ _ (by decide),
            show unqStep ('\\' :: 'r' :: rest) = some ('\r', 1) from rfl]
          show (unqLoop rest).map (fun l => '\r' :: l) = some ('\r' :: k)
          rw [h]; rfl
        · by_cases h5 : c = '\t'
          · subst h5
            show unqLoop ('\\' :: 't' :: rest) = some ('\t' :: k)
            rw [unqLoop_cons _ _ (by decide),
              show unqStep ('\\' :: 't' :: rest) = some ('\t', 1) from rfl]
            show (unqLoop rest).map (fun l => '\t' :: l) = some ('\t' :: k)
            rw [h]; rfl
          · by_cases h6 : c.toNat < 0x20 ∨ c = '<' ∨ c = '>' ∨ c = '&'
                ∨ c.toNat = 0x2028 ∨ c.toNat = 0x2029
            · have hb : c.toNat < 0xD800 := by
                rcases h6 with hh | hh | hh | hh | hh | hh
                · omega
                · subst hh; decide
                · subst hh; decide
                · subst hh; decide
                · omega
                · omega
              have hchunk : escapeChar c = ['\\', 'u', hexDigit (c.toNat / 4096 % 16),
                  hexDigit (c.toNat / 256 % 16), hexDigit (c.toNat / 16 % 16),
                  hexDigit (c.toNat % 16)] := by
                unfold escapeChar
                rw [if_neg h1, if_neg h2, if_neg h3, if_neg h4, if_neg h5, if_pos h6]
              rw [hchunk]
              show unqLoop ('\\' :: 'u' :: hexDigit (c.toNat / 4096 % 16) ::
                hexDigit (c.toNat / 256 % 16) :: hexDigit (c.toNat / 16 % 16) ::
                hexDigit (c.toNat % 16) :: rest) = some (c :: k)
              rw [unqLoop_cons _ _ (by decide), unqStep_u c.toNat rest hb]
              show (unqLoop rest).map (fun l => Char.ofNat c.toNat :: l) = some (c :: k)
              rw [h, Char.ofNat_toNat]; rfl
            · have hchunk : escapeChar c = [c] := by
                unfold escapeChar
                rw [if_neg h1, if_neg h2, if_neg h3, if_neg h4, if_neg h5, if_neg h6]
              have hc20 : ¬ c.toNat < 0x20 := fun hlt => h6 (Or.inl hlt)
              have hstep : unqStep (c :: rest) = some (c, 0) := by
                simp only [unqStep]
                rw [if_neg h2, if_neg h1, if_neg hc20]
              rw [hchunk]
              show unqLoop (c :: rest) = some (c :: k)
              rw [unqLoop_cons _ _ h1, hstep]
              show (unqLoop rest).map (fun l => c :: l) = some (c :: k)
              rw [h]; rfl

/-- The decode loop inverts the encoder on a whole string body. -/
theorem unqLoop_quote (cs : List Char) :
    unqLoop (cs.flatMap escapeChar ++ ['"']) = some cs := by
  induction cs with
  | nil => rw [List.flatMap_nil, List.nil_append, unqLoop]; rfl
  | cons c cs ih =>
    rw [List.flatMap_cons, List.append_assoc]
    exact unqLoop_escape c _ cs ih

/-- Go's JSON string codec round-trips every string. -/
theorem jsonUnquote_jsonQuote (s : String) : jsonUnquote (jsonQuote s) = some s := by
  show (unqLoop (s.data.flatMap escapeChar ++ ['"'])).map String.mk = some s
  rw [unqLoop_quote]
  rfl

/-- Claim C6: for every syntactically valid URL, marshalling a `JsonURL`
to JSON and unmarshalling the result yields a value whose string form
equals the original value's string form. -/
theorem claim_C6_roundtrip (j : JsonURL) (u : GoURL) (h1 : j.u = some u)
    (h2 : urlValid u.str = true) :
    j.MarshalJSON = some (jsonQuote u.str) ∧
    JsonURL.UnmarshalJSON ⟨none⟩ (jsonQuote u.str) = (⟨some ⟨u.str⟩⟩, none) ∧
    (JsonURL.mk (some ⟨u.str⟩)).string = j.string := by
  refine ⟨?_, ?_, ?_⟩
  · simp [JsonURL.MarshalJSON, h1]
  · simp [JsonURL.UnmarshalJSON, jsonUnquote_jsonQuote, urlParse, h2]
  · simp [JsonURL.string, h1]

/-- Witness for C6 at a concrete catalog URL containing `&`. -/
theorem claim_C6_witness :
    (JsonURL.mk (some exRoundURL)).MarshalJSON = some (jsonQuote exRoundURL.str) ∧
    JsonURL.UnmarshalJSON ⟨none⟩ (jsonQuote exRoundURL.str) =
      (⟨some ⟨exRoundURL.str⟩⟩, none) ∧
    (JsonURL.mk (some ⟨exRoundURL.str⟩)).string = (JsonURL.mk (some exRoundURL)).string :=
  claim_C6_roundtrip ⟨some exRoundURL⟩ exRoundURL rfl rfl
